import Mathlib

/-!
Verification of the candidate-generation engine of the vanity-number
service (`vanity-number-lambda/app.py`).

The Python source is shallowly embedded: strings are `List Char`, the
keypad table and `generate_vanity_candidates` are translated directly
from the code, `itertools.product` becomes `productList`, the dedup
via `list(set(...))` followed by `.sort()` becomes `List.dedup`
followed by an insertion sort under the lexicographic (codepoint)
order on `List Char`, which is the order Python uses on `str`.
-/

namespace Vanity

/-- The `KEYPAD` dictionary of `app.py`: digits `'2'`–`'9'` map to their
letters; every other character is absent from the dictionary
(`none` models `digit not in KEYPAD`). -/
def KEYPAD (d : Char) : Option (List Char) :=
  if d = '2' then some ['A', 'B', 'C']
  else if d = '3' then some ['D', 'E', 'F']
  else if d = '4' then some ['G', 'H', 'I']
  else if d = '5' then some ['J', 'K', 'L']
  else if d = '6' then some ['M', 'N', 'O']
  else if d = '7' then some ['P', 'Q', 'R', 'S']
  else if d = '8' then some ['T', 'U', 'V']
  else if d = '9' then some ['W', 'X', 'Y', 'Z']
  else none

/-- One entry of `digit_letters`: `KEYPAD[digit] if digit in KEYPAD
else [digit]`. -/
def digitLetters (d : Char) : List Char :=
  (KEYPAD d).getD [d]

/-- `itertools.product(*lists)`: the Cartesian product in odometer
order, the rightmost position varying fastest, exactly as `itertools`
enumerates it. -/
def productList : List (List Char) → List (List Char)
  | [] => [[]]
  | l :: ls => l.flatMap fun x => (productList ls).map fun t => x :: t

/-- The rendering `f"{phone_number[:i]}-{word_candidate}-{phone_number[j:]}"`. -/
def renderCandidate (phone w : List Char) (i j : Nat) : List Char :=
  phone.take i ++ '-' :: (w ++ '-' :: phone.drop j)

/-- The inner double loop of `generate_vanity_candidates` for one
combination `s`: `for i in range(len(s)): for j in range(i+2, len(s)+1)`,
emitting a candidate whenever `"".join(s[i:j]).lower()` is in the word
set.  `j` ranges over `range (s.length + 1)` guarded by `i + 2 ≤ j`,
which enumerates exactly `range(i+2, len(s)+1)` in order.
`Char.toLower` agrees with Python `str.lower` on the ASCII characters
produced here (keypad letters and digits). -/
def scanCombination (W : List (List Char)) (phone s : List Char) :
    List (List Char) :=
  (List.range s.length).flatMap fun i =>
    (List.range (s.length + 1)).filterMap fun j =>
      if i + 2 ≤ j then
        if ((s.drop i).take (j - i)).map Char.toLower ∈ W then
          some (renderCandidate phone ((s.drop i).take (j - i)) i j)
        else none
      else none

/-- The full (pre-deduplication) `candidates` list accumulated over
all combinations of `itertools.product(*digit_letters)`. -/
def rawCandidates (W : List (List Char)) (phone : List Char) :
    List (List Char) :=
  (productList (phone.map digitLetters)).flatMap (scanCombination W phone)

/-- `candidates = list(set(candidates)); candidates.sort()`: duplicates
removed, then sorted ascending under Python string comparison, i.e. the
lexicographic codepoint order on `List Char` (Mathlib's linear order on
`List Char`).  Any correct sort of the deduplicated pool yields the same
list, so insertion sort is a faithful model of CPython's sort here. -/
def vanityList (W : List (List Char)) (phone : List Char) :
    List (List Char) :=
  (rawCandidates W phone).dedup.insertionSort (· ≤ ·)

/-- `generate_vanity_candidates`, from the regex strip down to the
returned list.  `re.sub(r"\D", "", s)` keeps exactly the digit
characters (`Char.isDigit`; the inputs of interest are ASCII).
`Except.error` models `raise ValueError(...)`. -/
def generate_vanity_candidates (W : List (List Char)) (input : List Char) :
    Except String (List (List Char)) :=
  let phone := input.filter Char.isDigit
  if ¬ (phone.length = 10 ∨ phone.length = 11) then
    Except.error "Phone number must be US format with 10 or 11 digits."
  else if phone.length = 11 then
    if phone.head? ≠ some '1' then
      Except.error "11-digit number must start with country code 1."
    else
      Except.ok (vanityList W (phone.drop 1))
  else
    Except.ok (vanityList W phone)

/-- The substitution-set sizes exactly as the spec states them:
4 letters for `'7'` and `'9'`, 3 for `'2'`–`'6'` and `'8'`, and a
singleton for the remaining (unmapped) digits `'0'` and `'1'`. -/
def specSubCount (d : Char) : Nat :=
  if d = '7' ∨ d = '9' then 4
  else if d = '2' ∨ d = '3' ∨ d = '4' ∨ d = '5' ∨ d = '6' ∨ d = '8' then 3
  else 1

section Rank

/-- The structured-output value `structured_llm.invoke` may hand back:
a dict that surely carries a `numbers` key only if present, and
likewise `numbers_tts`.  `none` in a field models the key being absent
from the dict. -/
structure OracleResponse where
  numbers : Option (List String)
  numbers_tts : Option (List String)
  deriving DecidableEq

/-- The dynamic value a Python function can return: either a bare list
(`return []`) or a 2-tuple of lists (`return (xs, ys)`). -/
inductive RankReturn where
  | single (l : List String)
  | pair (nums tts : List String)
  deriving DecidableEq

/-- Whether a `RankReturn` is a 2-tuple, i.e. whether the caller's
`ranked, ranked_tts = rank_vanity_candidates(...)` unpacking succeeds. -/
def RankReturn.isPair : RankReturn → Bool
  | .single _ => false
  | .pair _ _ => true

/-- The response handling of `rank_vanity_candidates` after
`structured_llm.invoke` returns: `return []` when the response is
`None`, has no `numbers` key, or `numbers` is empty (falsy); replace a
missing or length-mismatched `numbers_tts` by `numbers`; return the
two lists truncated to 5 entries. -/
def rank_vanity_candidates (response : Option OracleResponse) : RankReturn :=
  match response with
  | none => .single []
  | some r =>
    match r.numbers with
    | none => .single []
    | some nums =>
      if nums = [] then .single []
      else
        let tts :=
          match r.numbers_tts with
          | none => nums
          | some t => if t.length = nums.length then t else nums
        .pair (nums.take 5) (tts.take 5)

end Rank

/-! ### Structural lemmas about the embedding -/

theorem mem_productList {c : List Char} : ∀ {ls : List (List Char)},
    c ∈ productList ls ↔ List.Forall₂ (fun x l => x ∈ l) c ls := by
  induction c with
  | nil =>
    intro ls
    cases ls with
    | nil => simp [productList]
    | cons l ls => simp [productList]
  | cons x c ih =>
    intro ls
    cases ls with
    | nil => simp [productList]
    | cons l ls =>
      simp only [productList, List.mem_flatMap, List.mem_map,
        List.forall₂_cons]
      constructor
      · rintro ⟨a, ha, t, ht, he⟩
        obtain ⟨rfl, rfl⟩ : a = x ∧ t = c := List.cons.inj he
        exact ⟨ha, ih.mp ht⟩
      · rintro ⟨hx, hc⟩
        exact ⟨x, hx, c, ih.mpr hc, rfl⟩

theorem length_of_mem_productList {c : List Char} {ls : List (List Char)}
    (h : c ∈ productList ls) : c.length = ls.length :=
  (mem_productList.mp h).length_eq

theorem length_productList : ∀ ls : List (List Char),
    (productList ls).length = (ls.map List.length).prod := by
  intro ls
  induction ls with
  | nil => rfl
  | cons l ls ih =>
    simp only [productList, List.length_flatMap, Function.comp_def,
      List.length_map, List.map_const', List.sum_replicate, smul_eq_mul,
      List.map_cons, List.prod_cons, ih]

theorem mem_scanCombination {W : List (List Char)} {phone s x : List Char} :
    x ∈ scanCombination W phone s ↔
      ∃ i j, i + 2 ≤ j ∧ j ≤ s.length ∧
        ((s.drop i).take (j - i)).map Char.toLower ∈ W ∧
        x = renderCandidate phone ((s.drop i).take (j - i)) i j := by
  simp only [scanCombination, List.mem_flatMap, List.mem_filterMap,
    List.mem_range]
  constructor
  · rintro ⟨i, hi, j, hj, hval⟩
    by_cases h1 : i + 2 ≤ j
    · rw [if_pos h1] at hval
      by_cases h2 : ((s.drop i).take (j - i)).map Char.toLower ∈ W
      · rw [if_pos h2] at hval
        exact ⟨i, j, h1, by omega, h2, (Option.some.inj hval).symm⟩
      · rw [if_neg h2] at hval
        cases hval
    · rw [if_neg h1] at hval
      cases hval
  · rintro ⟨i, j, hij, hjle, hmem, rfl⟩
    exact ⟨i, by omega, j, by omega, by rw [if_pos hij, if_pos hmem]⟩

theorem mem_rawCandidates {W : List (List Char)} {phone x : List Char} :
    x ∈ rawCandidates W phone ↔
      ∃ c ∈ productList (phone.map digitLetters),
        x ∈ scanCombination W phone c := by
  simp [rawCandidates]

theorem mem_vanityList {W : List (List Char)} {phone x : List Char} :
    x ∈ vanityList W phone ↔ x ∈ rawCandidates W phone := by
  unfold vanityList
  rw [(List.perm_insertionSort (α := List Char) (· ≤ ·) _).mem_iff,
    List.mem_dedup]

theorem generate_ok_of_len10 (W : List (List Char)) (input : List Char)
    (h10 : (input.filter Char.isDigit).length = 10) :
    generate_vanity_candidates W input
      = Except.ok (vanityList W (input.filter Char.isDigit)) := by
  simp [generate_vanity_candidates, h10]

theorem generate_ok_of_len11 (W : List (List Char)) (input : List Char)
    (h11 : (input.filter Char.isDigit).length = 11)
    (hhead : (input.filter Char.isDigit).head? = some '1') :
    generate_vanity_candidates W input
      = Except.ok (vanityList W ((input.filter Char.isDigit).drop 1)) := by
  simp only [generate_vanity_candidates, h11]
  rw [if_neg (by decide), if_pos (by decide), if_neg (by simp [hhead])]

theorem generate_ok_inv {W : List (List Char)} {input : List Char}
    {out : List (List Char)}
    (h : generate_vanity_candidates W input = Except.ok out) :
    ∃ p : List Char, p.length = 10 ∧ (∀ ch ∈ p, ch.isDigit = true) ∧
      out = vanityList W p := by
  simp only [generate_vanity_candidates] at h
  by_cases h1 : ¬ ((input.filter Char.isDigit).length = 10 ∨
      (input.filter Char.isDigit).length = 11)
  · rw [if_pos h1] at h
    cases h
  · rw [if_neg h1] at h
    by_cases h2 : (input.filter Char.isDigit).length = 11
    · rw [if_pos h2] at h
      by_cases h3 : (input.filter Char.isDigit).head? ≠ some '1'
      · rw [if_pos h3] at h
        cases h
      · rw [if_neg h3] at h
        injection h with h
        refine ⟨_, ?_, ?_, h.symm⟩
        · rw [List.length_drop, h2]
        · intro ch hch
          exact List.of_mem_filter (List.mem_of_mem_drop hch)
    · rw [if_neg h2] at h
      injection h with h
      have h10 : (input.filter Char.isDigit).length = 10 := by tauto
      exact ⟨_, h10, fun ch hch => List.of_mem_filter hch, h.symm⟩

/-! ### Claim theorems -/

/-- C1: for a valid 10-digit DigitSequence, a string is in the output of
`generate_vanity_candidates` if and only if some combination `c` drawn
from the Cartesian product of the per-digit substitution sets and
indices `i < j` with `j - i ≥ 2` (and `j ≤ 10`) exist such that the
lowercasing of `c[i:j]` is in the word set, and the string equals
`originalDigits[0:i] ++ "-" ++ c[i:j] ++ "-" ++ originalDigits[j:]`,
the surrounding characters being the original digits. -/
theorem c1_candidate_membership (W : List (List Char)) (input x : List Char)
    (h10 : (input.filter Char.isDigit).length = 10) :
    (∃ out, generate_vanity_candidates W input = Except.ok out ∧ x ∈ out) ↔
    (∃ c, List.Forall₂ (fun ch l => ch ∈ l)
        c ((input.filter Char.isDigit).map digitLetters) ∧
      ∃ i j, i < j ∧ 2 ≤ j - i ∧ j ≤ 10 ∧
        ((c.drop i).take (j - i)).map Char.toLower ∈ W ∧
        x = (input.filter Char.isDigit).take i ++
            '-' :: ((c.drop i).take (j - i) ++
              '-' :: (input.filter Char.isDigit).drop j)) := by
  rw [generate_ok_of_len10 W input h10]
  have hlhs : (∃ out, (Except.ok (vanityList W (input.filter Char.isDigit)) :
      Except String (List (List Char))) = Except.ok out ∧ x ∈ out) ↔
      x ∈ vanityList W (input.filter Char.isDigit) := by
    constructor
    · rintro ⟨out, hout, hx⟩
      injection hout with h
      exact h ▸ hx
    · intro hx
      exact ⟨_, rfl, hx⟩
  rw [hlhs, mem_vanityList, mem_rawCandidates]
  constructor
  · rintro ⟨c, hc, hx⟩
    have hclen : c.length = 10 := by
      rw [length_of_mem_productList hc, List.length_map, h10]
    obtain ⟨i, j, hij, hjle, hmem, rfl⟩ := mem_scanCombination.mp hx
    exact ⟨c, mem_productList.mp hc, i, j, by omega, by omega, by omega,
      hmem, rfl⟩
  · rintro ⟨c, hc, i, j, hij, hgap, hjle, hmem, rfl⟩
    have hclen : c.length = 10 := by
      rw [hc.length_eq, List.length_map, h10]
    exact ⟨c, mem_productList.mpr hc,
      mem_scanCombination.mpr ⟨i, j, by omega, by omega, hmem, rfl⟩⟩

/-- C1 witness: for the word set `{"ab"}` and the (already 10-digit)
input `"2201010101"`, the candidate `"-AB-01010101"` is in the output,
produced by combination `"AB01010101"` over the window `[0, 2)`. -/
theorem c1_candidate_membership_witness :
    ∃ out, generate_vanity_candidates [['a', 'b']]
        ['2', '2', '0', '1', '0', '1', '0', '1', '0', '1']
      = Except.ok out ∧
      ['-', 'A', 'B', '-', '0', '1', '0', '1', '0', '1', '0', '1'] ∈ out :=
  (c1_candidate_membership _ _ _ (by decide)).mpr
    ⟨['A', 'B', '0', '1', '0', '1', '0', '1', '0', '1'],
      mem_productList.mp (by decide),
      0, 2, by decide, by decide, by decide, by decide, by decide⟩

/-- C2: after stripping non-digit characters, a 10-digit string is used
as-is; an 11-digit string starting with `'1'` has the country code
removed and the remaining 10 digits used; an 11-digit string not
starting with `'1'`, or any other length, makes
`generate_vanity_candidates` fail with an error. -/
theorem c2_normalization_validation (W : List (List Char))
    (input : List Char) :
    ((input.filter Char.isDigit).length = 10 →
      generate_vanity_candidates W input
        = Except.ok (vanityList W (input.filter Char.isDigit))) ∧
    ((input.filter Char.isDigit).length = 11 →
      (input.filter Char.isDigit).head? = some '1' →
      generate_vanity_candidates W input
        = Except.ok (vanityList W ((input.filter Char.isDigit).drop 1))) ∧
    ((input.filter Char.isDigit).length = 11 →
      (input.filter Char.isDigit).head? ≠ some '1' →
      ∃ e, generate_vanity_candidates W input = Except.error e) ∧
    ((input.filter Char.isDigit).length ≠ 10 →
      (input.filter Char.isDigit).length ≠ 11 →
      ∃ e, generate_vanity_candidates W input = Except.error e) := by
  refine ⟨generate_ok_of_len10 W input, generate_ok_of_len11 W input, ?_, ?_⟩
  · intro h11 hhead
    exact ⟨_, by
      simp only [generate_vanity_candidates, h11]
      rw [if_neg (by decide), if_pos (by decide), if_pos hhead]⟩
  · intro h10 h11
    exact ⟨_, by
      simp only [generate_vanity_candidates]
      rw [if_pos (not_or.mpr ⟨h10, h11⟩)]⟩

/-- C2 witness: all four normalization outcomes at concrete inputs:
a formatted 10-digit number, an 11-digit number with country code
`'1'`, an 11-digit number starting with `'2'` (error), and an 8-digit
number (error). -/
theorem c2_normalization_validation_witness :
    generate_vanity_candidates []
        ['5', '5', '5', ' ', '2', '3', '4', '-', '5', '6', '7', '8']
      = Except.ok (vanityList []
          (['5', '5', '5', ' ', '2', '3', '4', '-', '5', '6', '7',
            '8'].filter Char.isDigit)) ∧
    generate_vanity_candidates []
        ['1', '8', '0', '0', '5', '5', '5', '0', '1', '0', '1']
      = Except.ok (vanityList []
          ((['1', '8', '0', '0', '5', '5', '5', '0', '1', '0',
            '1'].filter Char.isDigit).drop 1)) ∧
    (∃ e, generate_vanity_candidates []
        ['2', '8', '0', '0', '5', '5', '5', '0', '1', '0', '1']
      = Except.error e) ∧
    (∃ e, generate_vanity_candidates [] ['5', '5', '5', '1', '2', '3', '4']
      = Except.error e) :=
  ⟨(c2_normalization_validation [] _).1 (by decide),
    (c2_normalization_validation [] _).2.1 (by decide) (by decide),
    (c2_normalization_validation [] _).2.2.1 (by decide) (by decide),
    (c2_normalization_validation [] _).2.2.2 (by decide) (by decide)⟩

/-- C3: on a valid 10-digit DigitSequence the returned list has no
duplicates and is strictly ascending in the lexicographic (codepoint)
order on strings. -/
theorem c3_output_sorted_nodup (W : List (List Char)) (input : List Char)
    (h10 : (input.filter Char.isDigit).length = 10) :
    ∃ out, generate_vanity_candidates W input = Except.ok out ∧
      out.Nodup ∧ out.Pairwise (fun a b : List Char => a < b) := by
  have hnodup : (vanityList W (input.filter Char.isDigit)).Nodup := by
    unfold vanityList
    exact (List.perm_insertionSort _ _).nodup_iff.mpr (List.nodup_dedup _)
  have hsorted : (vanityList W (input.filter Char.isDigit)).Pairwise
      (fun a b : List Char => a ≤ b) := by
    unfold vanityList
    exact List.sorted_insertionSort _ _
  exact ⟨_, generate_ok_of_len10 W input h10, hnodup,
    List.Pairwise.imp₂ (fun a b h1 h2 => lt_of_le_of_ne h1 h2)
      hsorted hnodup⟩

/-- C3 witness: the theorem applied at the word set `{"ab"}` and input
`"2201010101"`. -/
theorem c3_output_sorted_nodup_witness :
    ∃ out, generate_vanity_candidates [['a', 'b']]
        ['2', '2', '0', '1', '0', '1', '0', '1', '0', '1']
      = Except.ok out ∧
      out.Nodup ∧ out.Pairwise (fun a b : List Char => a < b) :=
  c3_output_sorted_nodup _ _ (by decide)

/-- C4: when the word set holds only lowercase alphabetic strings of
length at least 2, no matched window of a produced candidate covers a
position whose original digit is `'0'` or `'1'`: the hard-separator
invariant. -/
theorem c4_hard_separator (W : List (List Char)) (phone : List Char)
    (hW : ∀ w ∈ W, 2 ≤ w.length ∧ ∀ ch ∈ w, ch.isLower = true)
    (hlen : phone.length = 10)
    (comb : List Char)
    (hc : List.Forall₂ (fun ch l => ch ∈ l) comb (phone.map digitLetters))
    (i j : Nat) (hij : i + 2 ≤ j) (hj : j ≤ 10)
    (hmatch : ((comb.drop i).take (j - i)).map Char.toLower ∈ W) :
    ∀ k, i ≤ k → k < j → phone[k]? ≠ some '0' ∧ phone[k]? ≠ some '1' := by
  have hclen : comb.length = 10 := by
    rw [hc.length_eq, List.length_map, hlen]
  have key : ∀ k, i ≤ k → k < j → ∀ d : Char, d = '0' ∨ d = '1' →
      phone[k]? ≠ some d := by
    intro k hk1 hk2 d hd heq
    have hk10 : k < 10 := lt_of_lt_of_le hk2 hj
    have hkp : k < phone.length := by omega
    have hkc : k < comb.length := by omega
    have hphd : phone[k] = d := by
      rw [List.getElem?_eq_getElem hkp] at heq
      exact Option.some.inj heq
    have hck : comb[k] ∈ digitLetters (phone[k]) := by
      have h2 := hc.get hkc (by rw [List.length_map]; omega)
      simpa [List.get_eq_getElem, List.getElem_map] using h2
    rw [hphd] at hck
    have hdl : digitLetters d = [d] := by
      rcases hd with rfl | rfl <;> rfl
    rw [hdl, List.mem_singleton] at hck
    have hki : k - i < ((comb.drop i).take (j - i)).length := by
      simp only [List.length_take, List.length_drop, hclen]
      omega
    have hwk : ((comb.drop i).take (j - i))[k - i] = d := by
      have hplus : i + (k - i) = k := by omega
      simp only [List.getElem_take, List.getElem_drop, hplus]
      exact hck
    have hki2 : k - i <
        (((comb.drop i).take (j - i)).map Char.toLower).length := by
      simpa using hki
    have hmk : (((comb.drop i).take (j - i)).map Char.toLower)[k - i] = d := by
      rw [List.getElem_map, hwk]
      rcases hd with rfl | rfl <;> rfl
    have hdm : d ∈ ((comb.drop i).take (j - i)).map Char.toLower := by
      rw [← hmk]
      exact List.getElem_mem _
    have hlow := (hW _ hmatch).2 d hdm
    rcases hd with rfl | rfl <;> exact absurd hlow (by decide)
  intro k hk1 hk2
  exact ⟨key k hk1 hk2 '0' (Or.inl rfl), key k hk1 hk2 '1' (Or.inr rfl)⟩

/-- C4 witness: word set `{"ab"}`, digits `"2201010101"`, combination
`"AB01010101"`, window `[0, 2)`; position 1 inside the window holds the
digit `'2'`, not a separator. -/
theorem c4_hard_separator_witness :
    (['2', '2', '0', '1', '0', '1', '0', '1', '0', '1'] :
        List Char)[1]? ≠ some '0' ∧
    (['2', '2', '0', '1', '0', '1', '0', '1', '0', '1'] :
        List Char)[1]? ≠ some '1' :=
  c4_hard_separator [['a', 'b']] _ (by decide) (by decide)
    ['A', 'B', '0', '1', '0', '1', '0', '1', '0', '1']
    (mem_productList.mp (by decide)) 0 2 (by decide) (by decide)
    (by decide) 1 (by decide) (by decide)

/-- C5: on a valid 10-digit DigitSequence the enumerator produces
exactly the product of the per-digit substitution-set sizes many
combinations (4 for `'7'`/`'9'`, 3 for `'2'`–`'6'`/`'8'`, 1 for
`'0'`/`'1'`), each of length 10. -/
theorem c5_combination_count (phone : List Char)
    (hlen : phone.length = 10) (hdig : ∀ d ∈ phone, d.isDigit = true) :
    (productList (phone.map digitLetters)).length
      = (phone.map fun d => (digitLetters d).length).prod ∧
    (∀ d ∈ phone, (digitLetters d).length = specSubCount d) ∧
    (∀ c ∈ productList (phone.map digitLetters), c.length = 10) := by
  refine ⟨?_, ?_, ?_⟩
  · rw [length_productList, List.map_map]
    rfl
  · intro d _
    by_cases h2 : d = '2'
    · subst h2; decide
    by_cases h3 : d = '3'
    · subst h3; decide
    by_cases h4 : d = '4'
    · subst h4; decide
    by_cases h5 : d = '5'
    · subst h5; decide
    by_cases h6 : d = '6'
    · subst h6; decide
    by_cases h7 : d = '7'
    · subst h7; decide
    by_cases h8 : d = '8'
    · subst h8; decide
    by_cases h9 : d = '9'
    · subst h9; decide
    have hnone : KEYPAD d = none := by
      unfold KEYPAD
      rw [if_neg h2, if_neg h3, if_neg h4, if_neg h5, if_neg h6,
        if_neg h7, if_neg h8, if_neg h9]
    unfold digitLetters specSubCount
    rw [hnone, if_neg (by tauto), if_neg (by tauto)]
    rfl
  · intro c hcm
    rw [length_of_mem_productList hcm, List.length_map, hlen]

/-- C5 witness: `"7201010101"` yields `4 · 3 · 1⁸ = 12` combinations,
and digit `'7'` has a 4-letter substitution set. -/
theorem c5_combination_count_witness :
    (productList ((['7', '2', '0', '1', '0', '1', '0', '1', '0', '1'] :
        List Char).map digitLetters)).length = 12 ∧
    (digitLetters '7').length = specSubCount '7' :=
  ⟨by
    rw [(c5_combination_count _ (by decide) (by decide)).1]
    decide,
    (c5_combination_count
        ['7', '2', '0', '1', '0', '1', '0', '1', '0', '1']
        (by decide) (by decide)).2.1 '7' (by decide)⟩

/-- C6: every returned candidate splits at its two hyphens into an
all-digit prefix, a word, and an all-digit suffix whose lengths sum to
10, hence the candidate string has length exactly 12. -/
theorem c6_round_trip (W : List (List Char)) (input : List Char)
    (out : List (List Char))
    (hok : generate_vanity_candidates W input = Except.ok out) :
    ∀ x ∈ out, ∃ pre w suf : List Char,
      x = pre ++ '-' :: (w ++ '-' :: suf) ∧
      (∀ ch ∈ pre, ch.isDigit = true) ∧ (∀ ch ∈ suf, ch.isDigit = true) ∧
      pre.length + w.length + suf.length = 10 ∧ x.length = 12 := by
  obtain ⟨p, hplen, hpdig, rfl⟩ := generate_ok_inv hok
  intro x hx
  rw [mem_vanityList, mem_rawCandidates] at hx
  obtain ⟨comb, hcm, hxs⟩ := hx
  have hclen : comb.length = 10 := by
    rw [length_of_mem_productList hcm, List.length_map, hplen]
  obtain ⟨i, j, hij, hjle, hmatch, rfl⟩ := mem_scanCombination.mp hxs
  rw [hclen] at hjle
  refine ⟨p.take i, (comb.drop i).take (j - i), p.drop j, rfl, ?_, ?_, ?_, ?_⟩
  · exact fun ch hch => hpdig ch (List.mem_of_mem_take hch)
  · exact fun ch hch => hpdig ch (List.mem_of_mem_drop hch)
  · simp only [List.length_take, List.length_drop, hplen, hclen]
    omega
  · simp only [renderCandidate, List.length_append, List.length_cons,
      List.length_take, List.length_drop, hplen, hclen]
    omega

/-- C6 witness: the single candidate of word set `{"ab"}` on input
`"2201010101"` splits as required. -/
theorem c6_round_trip_witness :
    ∃ pre w suf : List Char,
      ['-', 'A', 'B', '-', '0', '1', '0', '1', '0', '1', '0', '1']
        = pre ++ '-' :: (w ++ '-' :: suf) ∧
      (∀ ch ∈ pre, ch.isDigit = true) ∧ (∀ ch ∈ suf, ch.isDigit = true) ∧
      pre.length + w.length + suf.length = 10 ∧
      (['-', 'A', 'B', '-', '0', '1', '0', '1', '0', '1', '0',
        '1'] : List Char).length = 12 :=
  c6_round_trip [['a', 'b']] ['2', '2', '0', '1', '0', '1', '0', '1', '0', '1']
    [['-', 'A', 'B', '-', '0', '1', '0', '1', '0', '1', '0', '1']]
    rfl
    ['-', 'A', 'B', '-', '0', '1', '0', '1', '0', '1', '0', '1'] (by decide)

theorem digit_window_not_mem {W : List (List Char)}
    (hW : ∀ w ∈ W, 2 ≤ w.length ∧ ∀ ch ∈ w, ch.isLower = true)
    {w : List Char} (hw : ∀ ch ∈ w, ch = '0' ∨ ch = '1') (hne : w ≠ []) :
    w.map Char.toLower ∉ W := by
  intro hmem
  obtain ⟨ch, hch⟩ := List.exists_mem_of_ne_nil w hne
  have h1 := (hW _ hmem).2 (Char.toLower ch) (List.mem_map_of_mem _ hch)
  rcases hw ch hch with rfl | rfl <;> exact absurd h1 (by decide)

/-- C7: given a word set of lowercase alphabetic words, every valid
input (10 digits after normalization, or 11 beginning with `'1'`)
yields a non-error result, and the separator-only sequence
`"0101010101"` yields the empty list, a valid outcome. -/
theorem c7_total_on_valid (W : List (List Char)) (input : List Char)
    (hW : ∀ w ∈ W, 2 ≤ w.length ∧ ∀ ch ∈ w, ch.isLower = true) :
    (((input.filter Char.isDigit).length = 10 ∨
        ((input.filter Char.isDigit).length = 11 ∧
          (input.filter Char.isDigit).head? = some '1')) →
      ∃ out, generate_vanity_candidates W input = Except.ok out) ∧
    generate_vanity_candidates W
        ['0', '1', '0', '1', '0', '1', '0', '1', '0', '1']
      = Except.ok [] := by
  constructor
  · rintro (h10 | ⟨h11, hhead⟩)
    · exact ⟨_, generate_ok_of_len10 W input h10⟩
    · exact ⟨_, generate_ok_of_len11 W input h11 hhead⟩
  · have hscan : scanCombination W
        ['0', '1', '0', '1', '0', '1', '0', '1', '0', '1']
        ['0', '1', '0', '1', '0', '1', '0', '1', '0', '1'] = [] := by
      unfold scanCombination
      rw [List.flatMap_eq_nil_iff]
      intro i hi
      rw [List.filterMap_eq_nil_iff]
      intro j _
      rw [List.mem_range] at hi
      by_cases h1 : i + 2 ≤ j
      · rw [if_pos h1]
        by_cases h2 : (((['0', '1', '0', '1', '0', '1', '0', '1', '0',
            '1'] : List Char).drop i).take (j - i)).map Char.toLower ∈ W
        · exfalso
          refine digit_window_not_mem hW ?_ ?_ h2
          · intro ch hch
            have hm : ch ∈ (['0', '1', '0', '1', '0', '1', '0', '1', '0',
                '1'] : List Char) :=
              List.mem_of_mem_drop (List.mem_of_mem_take hch)
            have hall : ∀ x ∈ (['0', '1', '0', '1', '0', '1', '0', '1',
                '0', '1'] : List Char), x = '0' ∨ x = '1' := by decide
            exact hall ch hm
          · intro hnil
            have hlen0 := congrArg List.length hnil
            simp only [List.length_take, List.length_drop,
              List.length_nil] at hlen0
            simp only [List.length_cons, List.length_nil] at hi hlen0
            omega
        · rw [if_neg h2]
      · rw [if_neg h1]
    have hprod : productList
        ((['0', '1', '0', '1', '0', '1', '0', '1', '0', '1'] :
          List Char).map digitLetters)
        = [['0', '1', '0', '1', '0', '1', '0', '1', '0', '1']] := by
      decide
    have hvan : vanityList W
        ['0', '1', '0', '1', '0', '1', '0', '1', '0', '1'] = [] := by
      unfold vanityList rawCandidates
      rw [hprod]
      simp [hscan, List.insertionSort]
    have hfil : ((['0', '1', '0', '1', '0', '1', '0', '1', '0', '1'] :
        List Char).filter Char.isDigit)
        = ['0', '1', '0', '1', '0', '1', '0', '1', '0', '1'] := by decide
    have hgen := generate_ok_of_len10 W
      ['0', '1', '0', '1', '0', '1', '0', '1', '0', '1'] (by decide)
    rw [hgen, hfil, hvan]

/-- C7 witness: with word set `{"ab"}`, a valid 10-digit input returns
`ok`, and the separator-only input returns the empty list. -/
theorem c7_total_on_valid_witness :
    (∃ out, generate_vanity_candidates [['a', 'b']]
        ['2', '2', '0', '1', '0', '1', '0', '1', '0', '1']
      = Except.ok out) ∧
    generate_vanity_candidates [['a', 'b']]
        ['0', '1', '0', '1', '0', '1', '0', '1', '0', '1']
      = Except.ok [] :=
  ⟨(c7_total_on_valid [['a', 'b']]
      ['2', '2', '0', '1', '0', '1', '0', '1', '0', '1']
      (by decide)).1 (Or.inl (by decide)),
    (c7_total_on_valid [['a', 'b']] [] (by decide)).2⟩

/-- C8 (evaluation at the failing inputs): a missing oracle response,
a response without a `numbers` key, and a response with an empty
`numbers` list all make `rank_vanity_candidates` return the bare list
`[]` — not a pair, so the caller's 2-tuple unpacking cannot succeed —
while a length-mismatched `numbers_tts` falls back to `numbers` and
both lists are truncated to 5. -/
theorem c8_rank_fallback_not_pair :
    rank_vanity_candidates none = RankReturn.single [] ∧
    rank_vanity_candidates (some ⟨none, none⟩) = RankReturn.single [] ∧
    rank_vanity_candidates (some ⟨some [], some ["x"]⟩)
      = RankReturn.single [] ∧
    (rank_vanity_candidates none).isPair = false ∧
    rank_vanity_candidates (some ⟨some ["a", "b"], some ["x"]⟩)
      = RankReturn.pair ["a", "b"] ["a", "b"] ∧
    rank_vanity_candidates
        (some ⟨some ["a", "b", "c", "d", "e", "f"],
          some ["u", "v", "w", "x", "y", "z"]⟩)
      = RankReturn.pair ["a", "b", "c", "d", "e"]
          ["u", "v", "w", "x", "y"] :=
  ⟨rfl, rfl, rfl, rfl, rfl, rfl⟩

/-- C9: inputs whose digit subsequences agree produce identical
results — formatting characters never influence the output. -/
theorem c9_format_insensitive (W : List (List Char)) (s t : List Char)
    (h : s.filter Char.isDigit = t.filter Char.isDigit) :
    generate_vanity_candidates W s = generate_vanity_candidates W t := by
  simp only [generate_vanity_candidates, h]

/-- C9 witness: `"(220) 101-0101"` and `"2201010101"` give the same
result. -/
theorem c9_format_insensitive_witness :
    generate_vanity_candidates [['a', 'b']]
        ['(', '2', '2', '0', ')', ' ', '1', '0', '1', '-', '0', '1',
          '0', '1']
      = generate_vanity_candidates [['a', 'b']]
        ['2', '2', '0', '1', '0', '1', '0', '1', '0', '1'] :=
  c9_format_insensitive _ _ _ (by decide)

/-- C10: prefixing a 10-digit string with the country code `'1'`
changes nothing: the 11-digit form returns exactly the same list. -/
theorem c10_country_code_strip (W : List (List Char)) (d : List Char)
    (hlen : d.length = 10) (hdig : ∀ ch ∈ d, ch.isDigit = true) :
    generate_vanity_candidates W ('1' :: d)
      = generate_vanity_candidates W d := by
  have hfd : d.filter Char.isDigit = d := List.filter_eq_self.mpr hdig
  have h1 : ('1' :: d).filter Char.isDigit = '1' :: d := by
    rw [List.filter_cons_of_pos (by decide), hfd]
  rw [generate_ok_of_len10 W d (by rw [hfd, hlen]),
    generate_ok_of_len11 W ('1' :: d)
      (by rw [h1, List.length_cons, hlen])
      (by rw [h1]; rfl),
    h1, hfd]
  rfl

/-- C10 witness: `"12201010101"` and `"2201010101"` give the same
result. -/
theorem c10_country_code_strip_witness :
    generate_vanity_candidates [['a', 'b']]
        ('1' :: ['2', '2', '0', '1', '0', '1', '0', '1', '0', '1'])
      = generate_vanity_candidates [['a', 'b']]
        ['2', '2', '0', '1', '0', '1', '0', '1', '0', '1'] :=
  c10_country_code_strip _ _ (by decide) (by decide)

end Vanity
